import Mathlib

/-!
Verification of the skelly repository: the stdin/stdout JSON Responder
(src/.skelly/default_agent.py) and the text fixture library
(src/fixtures/python/edge_cases.py).

Python strings are modelled as lists of Unicode code points (`List Char`).
-/

namespace Skelly

/-- A Python string: a sequence of Unicode code points. -/
abbrev Str := List Char

/-- The code points of a Lean string literal, used to write concrete Python strings. -/
def chars (s : String) : Str := s.data

/-! ## Text fixture: src/fixtures/python/edge_cases.py -/

/-- The set of characters removed by Python's `str.strip()` with no argument:
exactly the code points CPython treats as whitespace (ASCII whitespace and
control separators, NEL, NBSP, ogham space, the U+2000 block, line/paragraph
separators, narrow NBSP, math space, ideographic space). -/
def pyIsSpace (c : Char) : Bool :=
  let n := c.toNat
  (9 ≤ n && n ≤ 13) || (28 ≤ n && n ≤ 32) || n == 133 || n == 160 || n == 5760 ||
    (8192 ≤ n && n ≤ 8202) || n == 8232 || n == 8233 || n == 8239 || n == 8287 || n == 12288

/-- Python `value.strip()`: remove leading and trailing whitespace. -/
def pyStrip (s : Str) : Str :=
  ((s.dropWhile pyIsSpace).reverse.dropWhile pyIsSpace).reverse

/-- The character substitution performed by `text.replace("-", "_")`:
since the pattern is a single character, the replacement acts pointwise. -/
def hyphenToUnderscore (c : Char) : Char :=
  if c = '-' then '_' else c

/-- `normalize` from edge_cases.py: `value.strip().replace("-", "_")`. -/
def normalize (value : Str) : Str :=
  (pyStrip value).map hyphenToUnderscore

/-- The per-character case mapping of Python's `str.upper()`, restricted to the
ASCII range (the locale-independent mapping on a-z; code points outside ASCII
are left unchanged in this model, which no proved property depends on). -/
def pyUpperChar (c : Char) : Char :=
  if 'a' ≤ c && c ≤ 'z' then Char.ofNat (c.toNat - 32) else c

/-- Python `s.upper()` as a character-wise map. -/
def pyUpper (s : Str) : Str := s.map pyUpperChar

/-- The `Runner` fixture class: stateless, no instance data. -/
structure Runner where

/-- `Runner.run` from edge_cases.py: `cleaned = normalize(value); return cleaned.upper()`. -/
def Runner.run (_ : Runner) (value : Str) : Str :=
  pyUpper (normalize value)

/-! ## Working-directory accessor -/

/-- The observable process state read by the accessor: the current working directory. -/
structure ProcEnv where
  cwd : Str

/-- Modelled from the spec: `os.getcwd()` returns the process's current working
directory as a string, read from process state at call time (not cached). -/
def getcwd (env : ProcEnv) : Str := env.cwd

/-- Modelled from the spec: the root PurePosixPath keeps from a path string
(one slash; exactly two leading slashes stay two; three or more collapse to
one). -/
def posixRoot (s : Str) : Str :=
  let k := (s.takeWhile (fun c => c == '/')).length
  if k == 0 then [] else if k == 2 then ['/', '/'] else ['/']

/-- Modelled from the spec: the components PurePosixPath keeps from a path
string, dropping empty and `"."` components. -/
def posixParts (s : Str) : List Str :=
  ((s.dropWhile (fun c => c == '/')).splitOn '/').filter
    (fun p => !p.isEmpty && p ≠ ['.'])

/-- Modelled from the spec: `str(pathlib.Path(s))` on a POSIX path string:
the root followed by the kept components joined with slashes, or `"."` for an
empty path. -/
def posixPathStr (s : Str) : Str :=
  if (posixRoot s).isEmpty && (posixParts s).isEmpty then ['.']
  else posixRoot s ++ List.intercalate ['/'] (posixParts s)

/-- `use_path` from edge_cases.py: `return str(Path(os.getcwd()))`. -/
def use_path (env : ProcEnv) : Str :=
  posixPathStr (getcwd env)

/-! ## Responder: src/.skelly/default_agent.py -/

/-- A parsed JSON document, as produced by `json.load`: Python `None`, `bool`,
number, `str`, `list` and `dict`. JSON numbers are modelled as integers, which
is sufficient for every property proved here. -/
inductive Json where
  | null : Json
  | bool (b : Bool) : Json
  | num (n : Int) : Json
  | str (s : Str) : Json
  | arr (elems : List Json) : Json
  | obj (fields : List (Str × Json)) : Json

/-- Key lookup in a parsed JSON object. `json.load` builds Python dicts in
which a repeated key keeps its last occurrence, so the last binding wins. -/
def jlookup (fs : List (Str × Json)) (k : Str) : Option Json :=
  match fs with
  | [] => none
  | (k₀, v) :: rest =>
    match jlookup rest k with
    | some r => some r
    | none => if k₀ = k then some v else none

/-- Python truthiness of a parsed JSON value (`None` and empty or zero values
are falsy), as used by the `x or {}` defaulting in the agent. -/
def truthy : Json → Bool
  | .null => false
  | .bool b => b
  | .num n => n ≠ 0
  | .str s => !s.isEmpty
  | .arr xs => !xs.isEmpty
  | .obj fs => !fs.isEmpty

/-- `x or {}` from the agent: a falsy value is replaced by an empty dict. -/
def orEmpty (j : Json) : Json :=
  if truthy j then j else Json.obj []

/-- Whether a parsed JSON value is a Python dict. -/
def Json.isObj : Json → Bool
  | .obj _ => true
  | _ => false

/-- The field list of a parsed JSON object (empty for non-objects). -/
def Json.objFields : Json → List (Str × Json)
  | .obj fs => fs
  | _ => []

/-- The Python exceptions the agent can raise while handling a parsed document. -/
inductive PyError where
  | attributeError : PyError

/-- Python `j.get(k)`: returns the value bound to `k`, `None` when `k` is
absent, and raises `AttributeError` when `j` is not a dict. -/
def Json.pyGet (j : Json) (k : Str) : Except PyError Json :=
  match j with
  | .obj fs => .ok ((jlookup fs k).getD Json.null)
  | _ => .error .attributeError

/-- Python `j.get(k, dflt)`: like `Json.pyGet` but with an explicit default for
an absent key (a key bound to `None` still yields `None`, not the default). -/
def Json.pyGetD (j : Json) (k : Str) (dflt : Json) : Except PyError Json :=
  match j with
  | .obj fs => .ok ((jlookup fs k).getD dflt)
  | _ => .error .attributeError

/-- Python `repr` of a string: the chosen quote (double quotes when the string
holds a single quote but no double quote), with the backslash, the quote and
the common control escapes rendered; other characters are kept literally (the
escaping of further non-printable code points is not modelled, and no proved
property depends on it). -/
def pyStrReprChar (q c : Char) : Str :=
  if c = '\\' then ['\\', '\\']
  else if c = q then ['\\', q]
  else if c = '\n' then ['\\', 'n']
  else if c = '\r' then ['\\', 'r']
  else if c = '\t' then ['\\', 't']
  else [c]

/-- Python `repr` of a string value. -/
def pyStrRepr (s : Str) : Str :=
  let q := if s.contains (Char.ofNat 39) && !s.contains '"' then '"' else Char.ofNat 39
  q :: ((s.map (pyStrReprChar q)).flatten ++ [q])

mutual

/-- Python `repr` of a parsed JSON value. -/
def pyRepr : Json → Str
  | .null => chars "None"
  | .bool true => chars "True"
  | .bool false => chars "False"
  | .num n => chars (toString n)
  | .str s => pyStrRepr s
  | .arr xs => '[' :: (List.intercalate (chars ", ") (pyReprList xs) ++ [']'])
  | .obj fs => '\x7b' :: (List.intercalate (chars ", ") (pyReprFields fs) ++ ['\x7d'])

/-- `repr` of each element of a Python list. -/
def pyReprList : List Json → List Str
  | [] => []
  | x :: rest => pyRepr x :: pyReprList rest

/-- `repr` of each `key: value` entry of a Python dict. -/
def pyReprFields : List (Str × Json) → List Str
  | [] => []
  | (k, v) :: rest => (pyStrRepr k ++ chars ": " ++ pyRepr v) :: pyReprFields rest

end

/-- Python `str()` of a value, as applied by an f-string replacement field with
no format spec: a string is kept as is, anything else is rendered by `repr`
(which agrees with `str` on `None`, booleans and numbers). -/
def pyStr : Json → Str
  | .str s => s
  | j => pyRepr j

/-- The response dict built by the agent from the already-formatted `kind`,
`name` and `path` strings: the four keys in construction order. -/
def mkResponse (kindS nameS pathS : Str) : Json :=
  Json.obj [
    (chars "summary", Json.str (kindS ++ [' '] ++ nameS ++ chars " in " ++ pathS ++ ['.'])),
    (chars "purpose", Json.str (chars "Describe responsibilities of " ++ nameS ++ ['.'])),
    (chars "side_effects", Json.str (chars "Unknown from static analysis.")),
    (chars "confidence", Json.str (chars "medium"))]

/-- The agent body (default_agent.py lines 6-16) as a function of the parsed
request: `symbol = ((request.get("input") or {}).get("symbol") or {})`, the
three `symbol.get` calls with their defaults, and the response dict. The pure
expression bound to `symbol` is written out at each of its three uses. Each
`.get` on a non-dict raises `AttributeError`. -/
def respond (request : Json) : Except PyError Json :=
  match request.pyGet (chars "input") with
  | .error e => .error e
  | .ok inputVal =>
    match (orEmpty inputVal).pyGet (chars "symbol") with
    | .error e => .error e
    | .ok symVal =>
      match (orEmpty symVal).pyGetD (chars "name") (Json.str (chars "symbol")) with
      | .error e => .error e
      | .ok name =>
        match (orEmpty symVal).pyGetD (chars "kind") (Json.str (chars "symbol")) with
        | .error e => .error e
        | .ok kind =>
          match (orEmpty symVal).pyGetD (chars "path") (Json.str []) with
          | .error e => .error e
          | .ok path => .ok (mkResponse (pyStr kind) (pyStr name) (pyStr path))

/-- One hexadecimal digit as emitted by `json.dumps` escapes (lowercase). -/
def hexDig : Nat → Char
  | 0 => '0' | 1 => '1' | 2 => '2' | 3 => '3' | 4 => '4'
  | 5 => '5' | 6 => '6' | 7 => '7' | 8 => '8' | 9 => '9'
  | 10 => 'a' | 11 => 'b' | 12 => 'c' | 13 => 'd' | 14 => 'e'
  | _ => 'f'

/-- A `\uXXXX` escape sequence for a code unit. -/
def uEscape (n : Nat) : Str :=
  ['\\', 'u', hexDig (n / 4096 % 16), hexDig (n / 256 % 16), hexDig (n / 16 % 16), hexDig (n % 16)]

/-- How `json.dumps` (with its default `ensure_ascii=True`) renders one
character of a string: printable ASCII other than the quote and backslash is
literal, the named escapes cover the usual control characters, every other
code point becomes `\uXXXX` (as a surrogate pair beyond the BMP). -/
def dumpChar (c : Char) : Str :=
  if c = '"' then ['\\', '"']
  else if c = '\\' then ['\\', '\\']
  else if c.toNat == 8 then ['\\', 'b']
  else if c = '\t' then ['\\', 't']
  else if c = '\n' then ['\\', 'n']
  else if c.toNat == 12 then ['\\', 'f']
  else if c = '\r' then ['\\', 'r']
  else if 32 ≤ c.toNat && c.toNat ≤ 126 then [c]
  else if c.toNat < 65536 then uEscape c.toNat
  else uEscape (55296 + (c.toNat - 65536) / 1024) ++
    uEscape (56320 + (c.toNat - 65536) % 1024)

/-- `json.dumps` rendering of a string value. -/
def dumpStr (s : Str) : Str :=
  '"' :: ((s.map dumpChar).flatten ++ ['"'])

mutual

/-- `json.dumps` with default arguments: item separator `", "`, key separator
`": "`, `ensure_ascii=True`. -/
def Json.dump : Json → Str
  | .null => chars "null"
  | .bool true => chars "true"
  | .bool false => chars "false"
  | .num n => chars (toString n)
  | .str s => dumpStr s
  | .arr xs => '[' :: (List.intercalate (chars ", ") (Json.dumpList xs) ++ [']'])
  | .obj fs => '\x7b' :: (List.intercalate (chars ", ") (Json.dumpFields fs) ++ ['\x7d'])

/-- `json.dumps` rendering of the elements of a list. -/
def Json.dumpList : List Json → List Str
  | [] => []
  | x :: rest => Json.dump x :: Json.dumpList rest

/-- `json.dumps` rendering of the entries of a dict. -/
def Json.dumpFields : List (Str × Json) → List Str
  | [] => []
  | (k, v) :: rest => (dumpStr k ++ chars ": " ++ Json.dump v) :: Json.dumpFields rest

end

/-- The observable outcome of one run of the agent process. -/
structure ProcResult where
  exitCode : Nat
  stdout : Str

/-- The whole script as a function of the `json.load` outcome. Modelled from
the spec: the stdlib parse of standard input either yields a document or
raises, and an unhandled exception terminates CPython with exit status 1. The
script is straight-line, so nothing is printed before `print(json.dumps(...))`
on the last line, which appends a newline. -/
def runAgent (parsed : Except Str Json) : ProcResult :=
  match parsed with
  | .error _ => ⟨1, []⟩
  | .ok request =>
    match respond request with
    | .error _ => ⟨1, []⟩
    | .ok response => ⟨0, Json.dump response ++ ['\n']⟩

/-! ## Fixture properties (C5, C6) -/

lemma head?_dropWhile_false {p : Char → Bool} :
    ∀ {l : Str} {c : Char}, (l.dropWhile p).head? = some c → p c = false := by
  intro l
  induction l with
  | nil => intro c h; simp [List.dropWhile] at h
  | cons a t ih =>
    intro c h
    by_cases hp : p a
    · rw [List.dropWhile_cons] at h
      simp [hp] at h
      exact ih h
    · rw [List.dropWhile_cons] at h
      simp [hp] at h
      rw [← h]
      exact Bool.eq_false_iff.mpr hp

lemma dropWhile_eq_self_of_head {p : Char → Bool} {l : Str}
    (h : ∀ c, l.head? = some c → p c = false) : l.dropWhile p = l := by
  cases l with
  | nil => rfl
  | cons a t =>
    have ha : p a = false := h a rfl
    rw [List.dropWhile_cons]
    simp [ha]

lemma dropWhile_map_comm {p : Char → Bool} {f : Char → Char}
    (hf : ∀ c, p (f c) = p c) (l : Str) :
    (l.map f).dropWhile p = (l.dropWhile p).map f := by
  induction l with
  | nil => rfl
  | cons a t ih =>
    by_cases hp : p a
    · simp [List.dropWhile_cons, hf, hp, ih]
    · simp [List.dropWhile_cons, hf, hp]

lemma pyStrip_eq (s : Str) :
    pyStrip s = (s.dropWhile pyIsSpace).rdropWhile pyIsSpace := rfl

lemma head?_prefix_some {l m : Str} {c : Char} (hp : l <+: m) (h : l.head? = some c) :
    m.head? = some c := by
  obtain ⟨u, rfl⟩ := hp
  cases l with
  | nil => simp at h
  | cons a t => simpa using h

lemma head?_pyStrip_false {s : Str} {c : Char}
    (h : (pyStrip s).head? = some c) : pyIsSpace c = false := by
  rw [pyStrip_eq] at h
  exact head?_dropWhile_false (head?_prefix_some (List.rdropWhile_prefix _ _) h)

lemma getLast?_pyStrip_false {s : Str} {c : Char}
    (h : (pyStrip s).getLast? = some c) : pyIsSpace c = false := by
  rw [pyStrip_eq, List.rdropWhile, List.getLast?_reverse] at h
  exact head?_dropWhile_false h

lemma pyStrip_eq_self {l : Str}
    (h1 : ∀ c, l.head? = some c → pyIsSpace c = false)
    (h2 : ∀ c, l.getLast? = some c → pyIsSpace c = false) : pyStrip l = l := by
  rw [pyStrip_eq, dropWhile_eq_self_of_head h1, List.rdropWhile]
  rw [dropWhile_eq_self_of_head, List.reverse_reverse]
  intro c hc
  rw [List.head?_reverse] at hc
  exact h2 c hc

lemma pyIsSpace_hyphenToUnderscore (c : Char) :
    pyIsSpace (hyphenToUnderscore c) = pyIsSpace c := by
  unfold hyphenToUnderscore
  by_cases hc : c = '-'
  · simp [hc]; decide
  · simp [hc]

lemma pyStrip_map_hyphen (l : Str) :
    pyStrip (l.map hyphenToUnderscore) = (pyStrip l).map hyphenToUnderscore := by
  unfold pyStrip
  rw [dropWhile_map_comm pyIsSpace_hyphenToUnderscore, ← List.map_reverse,
    dropWhile_map_comm pyIsSpace_hyphenToUnderscore, ← List.map_reverse]

lemma hyphenToUnderscore_idem (c : Char) :
    hyphenToUnderscore (hyphenToUnderscore c) = hyphenToUnderscore c := by
  unfold hyphenToUnderscore
  by_cases hc : c = '-' <;> simp [hc]

lemma hyphenToUnderscore_ne_hyphen (c : Char) : ('-' == hyphenToUnderscore c) = false := by
  unfold hyphenToUnderscore
  by_cases hc : c = '-' <;> simp [hc]
  intro h
  exact hc h.symm

lemma map_contains_hyphen_false (l : Str) :
    (l.map hyphenToUnderscore).contains '-' = false := by
  induction l with
  | nil => rfl
  | cons a t ih =>
    simp only [List.map_cons, List.contains_cons, hyphenToUnderscore_ne_hyphen, Bool.false_or]
    exact ih

lemma map_eq_self_of_no_hyphen {l : Str} (h : l.contains '-' = false) :
    l.map hyphenToUnderscore = l := by
  induction l with
  | nil => rfl
  | cons a t ih =>
    simp only [List.contains_cons, Bool.or_eq_false_iff] at h
    have ha : ¬a = '-' := by
      intro hc
      rw [hc] at h
      simp at h
    simp only [List.map_cons, hyphenToUnderscore, if_neg ha]
    rw [ih h.2]

lemma head?_normalize_false {s : Str} {c : Char}
    (h : (normalize s).head? = some c) : pyIsSpace c = false := by
  unfold normalize at h
  rw [List.head?_map] at h
  rcases Option.map_eq_some'.mp h with ⟨c₀, hc₀, rfl⟩
  rw [pyIsSpace_hyphenToUnderscore]
  exact head?_pyStrip_false hc₀

lemma getLast?_normalize_false {s : Str} {c : Char}
    (h : (normalize s).getLast? = some c) : pyIsSpace c = false := by
  unfold normalize at h
  rw [List.getLast?_map] at h
  rcases Option.map_eq_some'.mp h with ⟨c₀, hc₀, rfl⟩
  rw [pyIsSpace_hyphenToUnderscore]
  exact getLast?_pyStrip_false hc₀

lemma option_all_not_of {o : Option Char} {p : Char → Bool}
    (h : ∀ c, o = some c → p c = false) : (o.all fun c => !p c) = true := by
  cases o with
  | none => rfl
  | some c => simpa [Option.all] using h c rfl

lemma of_option_all_not {o : Option Char} {p : Char → Bool}
    (h : (o.all fun c => !p c) = true) : ∀ c, o = some c → p c = false := by
  intro c hc
  subst hc
  simpa [Option.all] using h

lemma pyStrip_pyStrip (s : Str) : pyStrip (pyStrip s) = pyStrip s :=
  pyStrip_eq_self (fun _ h => head?_pyStrip_false h) (fun _ h => getLast?_pyStrip_false h)

lemma normalize_eq_self {s : Str}
    (hh : ∀ c, s.head? = some c → pyIsSpace c = false)
    (hl : ∀ c, s.getLast? = some c → pyIsSpace c = false)
    (hc : s.contains '-' = false) : normalize s = s := by
  unfold normalize
  rw [pyStrip_eq_self hh hl, map_eq_self_of_no_hyphen hc]

/-- C5: for every string `s`, `normalize s` has no leading or trailing
whitespace and no hyphen character, and `normalize` is idempotent. -/
theorem normalize_strip_hyphen_idem (s : Str) :
    ((normalize s).head?.all fun c => !pyIsSpace c) = true ∧
    ((normalize s).getLast?.all fun c => !pyIsSpace c) = true ∧
    (normalize s).contains '-' = false ∧
    normalize (normalize s) = normalize s := by
  refine ⟨option_all_not_of fun _ h => head?_normalize_false h,
    option_all_not_of fun _ h => getLast?_normalize_false h,
    map_contains_hyphen_false (pyStrip s), ?_⟩
  have hmap : (hyphenToUnderscore ∘ hyphenToUnderscore) = hyphenToUnderscore :=
    funext hyphenToUnderscore_idem
  show normalize (normalize s) = normalize s
  conv_lhs => unfold normalize
  rw [show normalize s = (pyStrip s).map hyphenToUnderscore from rfl,
    pyStrip_map_hyphen, pyStrip_pyStrip, List.map_map, hmap]

/-- C6: `Runner.run` returns the normalization result uppercased, and is
idempotent on strings that are already uppercase, hyphen-free and free of
leading and trailing whitespace. -/
theorem runner_run_upper_idem (r : Runner) (s : Str) :
    r.run s = pyUpper (normalize s) ∧
    (pyUpper s = s → s.contains '-' = false →
      (s.head?.all fun c => !pyIsSpace c) = true →
      (s.getLast?.all fun c => !pyIsSpace c) = true →
      r.run (r.run s) = r.run s) := by
  refine ⟨rfl, fun hu hc hh hl => ?_⟩
  have hn : normalize s = s :=
    normalize_eq_self (of_option_all_not hh) (of_option_all_not hl) hc
  have hr : r.run s = s := by
    show pyUpper (normalize s) = s
    rw [hn, hu]
  rw [hr]
  exact hr

/-- C6 witness: idempotence of `Runner.run` at the concrete string `"ABC"`. -/
theorem runner_run_upper_idem_witness :
    Runner.run ⟨⟩ (Runner.run ⟨⟩ (chars "ABC")) = Runner.run ⟨⟩ (chars "ABC") :=
  (runner_run_upper_idem ⟨⟩ (chars "ABC")).2 (by decide) (by decide) (by decide) (by decide)

/-! ## Working-directory accessor property (C8) -/

lemma intercalate_cons_head (sep p : Str) (ps : List Str) :
    ∃ rest, List.intercalate sep (p :: ps) = p ++ rest := by
  cases ps with
  | nil => exact ⟨[], by simp [List.intercalate, List.intersperse]⟩
  | cons q t =>
    exact ⟨sep ++ List.intercalate sep (q :: t), by simp [List.intercalate, List.intersperse]⟩

/-- C8: in a process environment with a non-empty working directory, `use_path`
returns a non-empty string, obtained by reading the working directory from the
process state passed at call time. -/
theorem use_path_nonempty (env : ProcEnv) (_h : env.cwd.isEmpty = false) :
    (use_path env).isEmpty = false ∧ use_path env = posixPathStr (getcwd env) := by
  refine ⟨?_, rfl⟩
  unfold use_path getcwd posixPathStr
  by_cases hc : ((posixRoot env.cwd).isEmpty && (posixParts env.cwd).isEmpty) = true
  · rw [if_pos hc]
    rfl
  · rw [if_neg hc]
    rcases hr : posixRoot env.cwd with _ | ⟨a, t⟩
    · rw [hr] at hc
      simp only [List.isEmpty_nil, Bool.true_and] at hc
      rcases hp : posixParts env.cwd with _ | ⟨p, ps⟩
      · rw [hp] at hc
        simp at hc
      · have hmem : p ∈ posixParts env.cwd := by
          rw [hp]
          exact List.mem_cons_self p ps
        have hpred := List.of_mem_filter hmem
        have hne : p.isEmpty = false := by
          simp only [Bool.and_eq_true, Bool.not_eq_true'] at hpred
          exact hpred.1
        obtain ⟨rest, hrest⟩ := intercalate_cons_head ['/'] p ps
        rw [List.nil_append, hrest]
        cases p with
        | nil => simp at hne
        | cons c cs => rfl
    · rfl

/-- C8 witness: `use_path` at the concrete working directory `"/root"`. -/
theorem use_path_nonempty_witness :
    (use_path ⟨chars "/root"⟩).isEmpty = false ∧
    use_path ⟨chars "/root"⟩ = posixPathStr (getcwd ⟨chars "/root"⟩) :=
  use_path_nonempty ⟨chars "/root"⟩ (by decide)

/-! ## Responder properties (C1, C2, C3, C4) -/

lemma orEmpty_obj (fs : List (Str × Json)) : orEmpty (Json.obj fs) = Json.obj fs := by
  cases fs with
  | nil => rfl
  | cons p t => rfl

lemma respond_eval (rfs gfs sfs : List (Str × Json))
    (hg : orEmpty ((jlookup rfs (chars "input")).getD Json.null) = Json.obj gfs)
    (hs : orEmpty ((jlookup gfs (chars "symbol")).getD Json.null) = Json.obj sfs) :
    respond (Json.obj rfs) = Except.ok (mkResponse
      (pyStr ((jlookup sfs (chars "kind")).getD (Json.str (chars "symbol"))))
      (pyStr ((jlookup sfs (chars "name")).getD (Json.str (chars "symbol"))))
      (pyStr ((jlookup sfs (chars "path")).getD (Json.str [])))) := by
  unfold respond
  simp only [Json.pyGet]
  rw [hg]
  simp only [Json.pyGet]
  rw [hs]
  simp only [Json.pyGetD]

lemma exists_orEmpty_obj {j : Json}
    (h : truthy j = false ∨ Json.isObj j = true) :
    ∃ fs, orEmpty j = Json.obj fs := by
  rcases h with h | h
  · exact ⟨[], by simp [orEmpty, h]⟩
  · cases j with
    | obj fs => exact ⟨fs, orEmpty_obj fs⟩
    | null => simp [Json.isObj] at h
    | bool b => simp [Json.isObj] at h
    | num n => simp [Json.isObj] at h
    | str s => simp [Json.isObj] at h
    | arr xs => simp [Json.isObj] at h

/-- C1 (amended): for every request that parses as a JSON object in which a
present-and-truthy `input` value is a mapping and a present-and-truthy
`symbol` value inside it is a mapping, the Responder never raises and produces
a JSON object with exactly the four keys `summary`, `purpose`, `side_effects`,
`confidence` in that order, all string-valued. -/
theorem respond_total_on_wellshaped (rfs : List (Str × Json))
    (hin : truthy ((jlookup rfs (chars "input")).getD Json.null) = false ∨
      Json.isObj ((jlookup rfs (chars "input")).getD Json.null) = true)
    (hsym : truthy ((jlookup (Json.objFields (orEmpty ((jlookup rfs (chars "input")).getD
        Json.null))) (chars "symbol")).getD Json.null) = false ∨
      Json.isObj ((jlookup (Json.objFields (orEmpty ((jlookup rfs (chars "input")).getD
        Json.null))) (chars "symbol")).getD Json.null) = true) :
    ∃ a b c d : Str, respond (Json.obj rfs) = Except.ok (Json.obj
      [(chars "summary", Json.str a), (chars "purpose", Json.str b),
       (chars "side_effects", Json.str c), (chars "confidence", Json.str d)]) := by
  obtain ⟨gfs, hg⟩ := exists_orEmpty_obj hin
  rw [hg] at hsym
  simp only [Json.objFields] at hsym
  obtain ⟨sfs, hs⟩ := exists_orEmpty_obj hsym
  exact ⟨_, _, _, _, respond_eval rfs gfs sfs hg hs⟩

/-- C1 witness: the well-shaped Widget request produces the four-key response. -/
theorem respond_total_on_wellshaped_witness :
    ∃ a b c d : Str, respond (Json.obj [(chars "input", Json.obj [(chars "symbol", Json.obj
      [(chars "name", Json.str (chars "Widget"))])])]) = Except.ok (Json.obj
      [(chars "summary", Json.str a), (chars "purpose", Json.str b),
       (chars "side_effects", Json.str c), (chars "confidence", Json.str d)]) :=
  respond_total_on_wellshaped
    [(chars "input", Json.obj [(chars "symbol", Json.obj [(chars "name", Json.str (chars "Widget"))])])]
    (by decide) (by decide)

/-- C1 counterexample: the document `\x7b"input": "x"\x7d` is valid JSON, yet the
Responder raises `AttributeError` on it instead of emitting a response. -/
theorem respond_raises_on_nonmapping_input :
    respond (Json.obj [(chars "input", Json.str (chars "x"))]) =
      Except.error PyError.attributeError := rfl

/-- C2: the Widget request produces exactly the documented response object. -/
theorem respond_widget_example :
    respond (Json.obj [(chars "input", Json.obj [(chars "symbol", Json.obj
      [(chars "name", Json.str (chars "Widget")),
       (chars "kind", Json.str (chars "function")),
       (chars "path", Json.str (chars "pkg/widget.py"))])])]) =
    Except.ok (Json.obj
      [(chars "summary", Json.str (chars "function Widget in pkg/widget.py.")),
       (chars "purpose", Json.str (chars "Describe responsibilities of Widget.")),
       (chars "side_effects", Json.str (chars "Unknown from static analysis.")),
       (chars "confidence", Json.str (chars "medium"))]) := rfl

/-- C3: the empty JSON object resolves every level to its default and produces
exactly the documented response object. -/
theorem respond_empty_object_example :
    respond (Json.obj []) =
    Except.ok (Json.obj
      [(chars "summary", Json.str (chars "symbol symbol in .")),
       (chars "purpose", Json.str (chars "Describe responsibilities of symbol.")),
       (chars "side_effects", Json.str (chars "Unknown from static analysis.")),
       (chars "confidence", Json.str (chars "medium"))]) := rfl

/-- C4: when standard input does not parse as a JSON document, the process
exits with the nonzero status 1 and emits nothing on standard output. -/
theorem runAgent_malformed_input (e : Str) :
    (runAgent (Except.error e)).exitCode = 1 ∧ (runAgent (Except.error e)).stdout = [] :=
  ⟨rfl, rfl⟩

/-! ## Serialized output properties (C7, C9) -/

lemma respond_ok_shape {req out : Json} (h : respond req = Except.ok out) :
    ∃ k n p, out = mkResponse k n p := by
  unfold respond at h
  repeat' split at h
  all_goals first
    | exact Except.noConfusion h
    | exact ⟨_, _, _, (Except.ok.inj h).symm⟩

/-- C7: on every input on which the Responder succeeds, the process writes the
single serialized response object followed by a newline, nothing else, and the
serialized keys appear in construction order `summary`, `purpose`,
`side_effects`, `confidence`. -/
theorem responder_single_line_output {req out : Json} (h : respond req = Except.ok out) :
    runAgent (Except.ok req) = ⟨0, Json.dump out ++ ['\n']⟩ ∧
    (Json.objFields out).map Prod.fst =
      [chars "summary", chars "purpose", chars "side_effects", chars "confidence"] := by
  constructor
  · have hrw : runAgent (Except.ok req) = (match respond req with
      | Except.error _ => ⟨1, []⟩
      | Except.ok response => ⟨0, Json.dump response ++ ['\n']⟩) := rfl
    rw [hrw, h]
  · obtain ⟨k, n, p, rfl⟩ := respond_ok_shape h
    rfl

/-- C7 witness: the empty request yields exactly one serialized line. -/
theorem responder_single_line_output_witness :
    runAgent (Except.ok (Json.obj [])) =
      ⟨0, Json.dump (mkResponse (chars "symbol") (chars "symbol") []) ++ ['\n']⟩ ∧
    (Json.objFields (mkResponse (chars "symbol") (chars "symbol") [])).map Prod.fst =
      [chars "summary", chars "purpose", chars "side_effects", chars "confidence"] :=
  responder_single_line_output rfl

/-- The request wrapping a concrete `symbol` mapping, used for C9. -/
def symReq (sfs : List (Str × Json)) : Json :=
  Json.obj [(chars "input", Json.obj [(chars "symbol", Json.obj sfs)])]

lemma respond_symReq (sfs : List (Str × Json)) :
    respond (symReq sfs) = Except.ok (mkResponse
      (pyStr ((jlookup sfs (chars "kind")).getD (Json.str (chars "symbol"))))
      (pyStr ((jlookup sfs (chars "name")).getD (Json.str (chars "symbol"))))
      (pyStr ((jlookup sfs (chars "path")).getD (Json.str [])))) := by
  refine respond_eval _ [(chars "symbol", Json.obj sfs)] sfs rfl ?_
  rw [show (jlookup [(chars "symbol", Json.obj sfs)] (chars "symbol")).getD Json.null =
    Json.obj sfs from rfl]
  exact orEmpty_obj sfs

/-- C9: a `symbol` field present with a JSON null value is not replaced by its
documented default; the null is formatted as the literal text `None` in the
response strings. -/
theorem respond_null_propagates (sfs : List (Str × Json)) :
    (jlookup sfs (chars "name") = some Json.null →
      ∃ k p, respond (symReq sfs) = Except.ok (mkResponse k (chars "None") p)) ∧
    (jlookup sfs (chars "kind") = some Json.null →
      ∃ n p, respond (symReq sfs) = Except.ok (mkResponse (chars "None") n p)) ∧
    (jlookup sfs (chars "path") = some Json.null →
      ∃ k n, respond (symReq sfs) = Except.ok (mkResponse k n (chars "None"))) := by
  refine ⟨fun h => ?_, fun h => ?_, fun h => ?_⟩ <;>
    · simp only [respond_symReq, h]
      exact ⟨_, _, rfl⟩

/-- C9 witness: a symbol mapping binding `name`, `kind` and `path` to null
yields `None` in each formatted position. -/
theorem respond_null_propagates_witness :
    (∃ k p, respond (symReq [(chars "name", Json.null), (chars "kind", Json.null),
      (chars "path", Json.null)]) = Except.ok (mkResponse k (chars "None") p)) ∧
    (∃ n p, respond (symReq [(chars "name", Json.null), (chars "kind", Json.null),
      (chars "path", Json.null)]) = Except.ok (mkResponse (chars "None") n p)) ∧
    (∃ k n, respond (symReq [(chars "name", Json.null), (chars "kind", Json.null),
      (chars "path", Json.null)]) = Except.ok (mkResponse k n (chars "None"))) :=
  ⟨(respond_null_propagates _).1 rfl,
   (respond_null_propagates _).2.1 rfl,
   (respond_null_propagates _).2.2 rfl⟩

/-! ## ASCII output property (C10) -/

lemma hexDig_ascii (n : Nat) : ((hexDig n).toNat < 128) = True := by
  unfold hexDig
  split <;> simp

lemma uEscape_all_ascii (n : Nat) :
    ((uEscape n).all fun c => c.toNat < 128) = true := by
  simp [uEscape, List.all_cons, hexDig_ascii]

lemma dumpChar_all_ascii (c : Char) :
    ((dumpChar c).all fun ch => ch.toNat < 128) = true := by
  unfold dumpChar
  repeat' split
  all_goals first
    | rfl
    | exact uEscape_all_ascii _
    | (rw [List.all_append, uEscape_all_ascii, uEscape_all_ascii]; rfl)
    | (rename_i hrange
       simp only [Bool.and_eq_true, decide_eq_true_eq] at hrange
       simp only [List.all_cons, List.all_nil, Bool.and_true, decide_eq_true_eq]
       exact Nat.lt_of_le_of_lt hrange.2 (by norm_num))

lemma dumpStr_all_ascii (s : Str) :
    ((dumpStr s).all fun c => c.toNat < 128) = true := by
  unfold dumpStr
  rw [List.all_cons]
  rw [List.all_append]
  have hflat : ((s.map dumpChar).flatten.all fun c => c.toNat < 128) = true := by
    induction s with
    | nil => rfl
    | cons a t ih =>
      rw [List.map_cons, List.flatten_cons, List.all_append, dumpChar_all_ascii, ih]
      rfl
  rw [hflat]
  rfl

/-- C10: every successful run of the Responder emits only ASCII characters on
standard output; non-ASCII characters in the formatted fields are escaped by
the serializer. -/
theorem responder_output_ascii {req out : Json} (h : respond req = Except.ok out) :
    ((runAgent (Except.ok req)).stdout.all fun c => c.toNat < 128) = true := by
  have hrw : runAgent (Except.ok req) = (match respond req with
    | Except.error _ => ⟨1, []⟩
    | Except.ok response => ⟨0, Json.dump response ++ ['\n']⟩) := rfl
  rw [hrw, h]
  obtain ⟨k, n, p, rfl⟩ := respond_ok_shape h
  show ((Json.dump (mkResponse k n p) ++ ['\n']).all fun c => c.toNat < 128) = true
  simp only [mkResponse, Json.dump, Json.dumpFields, List.intercalate, List.intersperse,
    List.flatten, List.all_append, List.all_cons, dumpStr_all_ascii, List.all_nil]
  decide

/-- C10 witness: the output for a request whose symbol name is the non-ASCII
string `"é"` consists solely of ASCII characters. -/
theorem responder_output_ascii_witness :
    ((runAgent (Except.ok (symReq [(chars "name", Json.str (chars "é"))]))).stdout.all
      fun c => c.toNat < 128) = true :=
  responder_output_ascii (respond_symReq [(chars "name", Json.str (chars "é"))])

end Skelly
